import Mathlib

/-!
Verification of the table-extraction pipeline: the OCRBox data model, OCR
JSON ingestion, quadrant-based slope correction (`table_utilities.py`) and
row clustering plus automatic grid reconstruction
(`table_reconstruction.py`), embedded shallowly.  Numeric code that the
program runs on floats is embedded over exact fields: the reconstruction
pipeline over `ℚ` (so concrete runs are decidable) and the trigonometric
slope-correction pass over `ℝ`.
-/

/-- One detected text region: `text` plus its corner points, as in class
`OCRBox` of `table_utilities.py`.  The constructor's length-4 validation is
`mkOCRBox` below; this structure is the raw record. -/
structure OCRBox (α : Type) where
  text : String
  coords : List (α × α)
  deriving Repr, DecidableEq

/-- An ingestion record (one entry of the JSON `blocks` list), with each
optional key of the two accepted wire shapes. -/
structure Blk where
  text : Option String
  coords : Option (List (ℚ × ℚ))
  x0 : Option ℚ
  y0 : Option ℚ
  x1 : Option ℚ
  y1 : Option ℚ
  deriving Repr, DecidableEq

/-- The distinguishable failures of the pipeline.  `validationError` is the
raise in `OCRBox.__init__` ("OCRBox requires 4 corner coordinates");
`formatError` is the raise in `load_ocr_json` ("Unrecognized OCR block
format: {blk}"), carrying the offending record; `emptySequenceError` is the
generic `ValueError` Python's builtin `min`/`max` raise on an empty
sequence.  `reconstructionError` — Modelled from the spec: the spec's error
taxonomy names a distinct `ReconstructionError` class raised when no
header/footer boxes are found; no such class exists anywhere in the source,
so the constructor exists here only so that statements can mention it. -/
inductive PyErr where
  | validationError
  | formatError (blk : Blk)
  | emptySequenceError
  | reconstructionError
  deriving Repr, DecidableEq

/-- `OCRBox.__init__`: `if len(coords) != 4: raise ValueError(...)`, else the
box is built with the given text and coords. -/
def mkOCRBox {α : Type} (text : String) (coords : List (α × α)) :
    Except PyErr (OCRBox α) :=
  if coords.length = 4 then .ok ⟨text, coords⟩ else .error .validationError

/-- `OCRBox.center`: `(sum(xs) / 4, sum(ys) / 4)` (the divisor 4 is written
out in the source, not derived from the length). -/
def OCRBox.center {α : Type} [Field α] (b : OCRBox α) : α × α :=
  ((b.coords.map Prod.fst).sum / 4, (b.coords.map Prod.snd).sum / 4)

/-- `OCRBox.slope`: destructures the first two corners `(x0,y0), (x1,y1)`
and returns `(y1 - y0) / max (x1 - x0) 1e-6`.  (A box built through
`mkOCRBox` always has 4 corners; on fewer than 2 the Python destructuring
would fail, an unreachable case mapped to 0 here.) -/
def OCRBox.slope {α : Type} [LinearOrderedField α] (b : OCRBox α) : α :=
  match b.coords with
  | (x0, y0) :: (x1, y1) :: _ => (y1 - y0) / max (x1 - x0) (1 / 1000000)
  | _ => 0

/-- Python's `min(...)` over a sequence: `ValueError` when empty. -/
def minList (l : List ℚ) : Except PyErr ℚ :=
  match l with
  | [] => .error .emptySequenceError
  | x :: xs => .ok (xs.foldl min x)

/-- Python's `max(...)` over a sequence: `ValueError` when empty. -/
def maxList (l : List ℚ) : Except PyErr ℚ :=
  match l with
  | [] => .error .emptySequenceError
  | x :: xs => .ok (xs.foldl max x)

/-- Python's `sorted` on rationals (ascending). -/
def pySorted (l : List ℚ) : List ℚ :=
  l.insertionSort (fun a b => a ≤ b)

/-- Python's `str.lower` (ASCII, which covers every string the program
handles). -/
def pyLower (s : String) : String := ⟨s.data.map Char.toLower⟩

/-- Whether `needle` starts `hay`. -/
def charStarts : List Char → List Char → Bool
  | [], _ => true
  | _ :: _, [] => false
  | a :: as, b :: bs => a == b && charStarts as bs

/-- Whether `needle` occurs contiguously in `hay`. -/
def charSub (needle : List Char) : List Char → Bool
  | [] => charStarts needle []
  | c :: t => charStarts needle (c :: t) || charSub needle t

/-- Python's `a in b` on strings: substring containment. -/
def pyIn (a b : String) : Bool := charSub a.data b.data

/-- `load_ocr_json`'s per-record dispatch: the polygon branch requires a
`coords` key whose list has length exactly 4; otherwise the rectangle
branch requires all of `x0, y0, x1, y1` and synthesizes the corners
`(x0,y0),(x1,y0),(x1,y1),(x0,y1)`; otherwise the record is unrecognized. -/
def parseBlk (blk : Blk) : Option (List (ℚ × ℚ)) :=
  match blk.coords with
  | some cs =>
    if cs.length = 4 then some cs
    else match blk.x0, blk.y0, blk.x1, blk.y1 with
      | some x0, some y0, some x1, some y1 =>
        some [(x0, y0), (x1, y0), (x1, y1), (x0, y1)]
      | _, _, _, _ => none
  | none =>
    match blk.x0, blk.y0, blk.x1, blk.y1 with
    | some x0, some y0, some x1, some y1 =>
      some [(x0, y0), (x1, y0), (x1, y1), (x0, y1)]
    | _, _, _, _ => none

/-- The loop of `load_ocr_json` over `raw["blocks"]`: each record is
dispatched by `parseBlk` and built with `OCRBox(text, coords)`; an
unrecognized record raises, aborting the whole batch. -/
def loadBlocks : List Blk → Except PyErr (List (OCRBox ℚ))
  | [] => .ok []
  | blk :: rest =>
    match parseBlk blk with
    | none => .error (.formatError blk)
    | some cs =>
      match mkOCRBox (blk.text.getD "") cs with
      | .error e => .error e
      | .ok b =>
        match loadBlocks rest with
        | .error e => .error e
        | .ok bs => .ok (b :: bs)

/-- Python's `round(x, 3)` over exact rationals: round half to even at the
third decimal place. -/
def pyRound3 (x : ℚ) : ℚ :=
  let y := x * 1000
  let f : ℤ := ⌊y⌋
  let r := y - (f : ℚ)
  let n : ℤ :=
    if r < 1 / 2 then f
    else if r > 1 / 2 then f + 1
    else if f % 2 = 0 then f else f + 1
  (n : ℚ) / 1000

/-- `np.mean` of a nonempty list: sum over length. -/
def npMean (g : List ℚ) : ℚ := g.sum / (g.length : ℚ)

/-- The loop of `cluster_rows`: `grp` is the running open group (nonempty),
`acc` the groups already closed.  A value joins the group when its distance
from the group's mean is `≤ tol`; otherwise the mean is emitted and a new
group starts.  The final group's mean is always emitted. -/
def clusterAux (tol : ℚ) : List ℚ → List ℚ → List ℚ → List ℚ
  | [], grp, acc => acc ++ [npMean grp]
  | y :: ys, grp, acc =>
    if |y - npMean grp| ≤ tol then clusterAux tol ys (grp ++ [y]) acc
    else clusterAux tol ys [y] (acc ++ [npMean grp])

/-- `cluster_rows(y_values, tol)` of `table_reconstruction.py`: greedy
single-pass clustering; empty input yields empty output. -/
def cluster_rows (yValues : List ℚ) (tol : ℚ) : List ℚ :=
  match yValues with
  | [] => []
  | y :: ys => clusterAux tol ys [y] []

/-- `np.linspace(a, b, n)`: `n` evenly spaced points from `a` to `b`
inclusive (the program always calls it with `n ≥ 3`). -/
def linspace (a b : ℚ) (n : ℕ) : List ℚ :=
  (List.range n).map (fun i : ℕ => a + (i : ℚ) * (b - a) / ((n : ℚ) - 1))

/-- The header-box filter of `plot_table_grid_auto` (line 146, identical in
`plot_table_grid` line 68): boxes whose lower-cased text is truthy
(nonempty) and occurs as a substring of some header label's lower-cased
text. -/
def headerBoxes (boxes : List (OCRBox ℚ)) (headers : List String) :
    List (OCRBox ℚ) :=
  boxes.filter (fun b =>
    !(pyLower b.text).isEmpty &&
      headers.any (fun h => pyIn (pyLower b.text) (pyLower h)))

/-- The y-coordinates feeding `header_top` (line 157): every corner y of
every box some header label's lower-cased text occurs in. -/
def headerYs (boxes : List (OCRBox ℚ)) (headers : List String) : List ℚ :=
  (boxes.filter (fun b =>
      headers.any (fun h => pyIn (pyLower h) (pyLower b.text)))).flatMap
    (fun b => b.coords.map Prod.snd)

/-- The y-coordinates feeding `footer_bottom` (line 158): every corner y of
every box some footer label's lower-cased text occurs in. -/
def footerYs (boxes : List (OCRBox ℚ)) (footers : List String) : List ℚ :=
  (boxes.filter (fun b =>
      footers.any (fun f => pyIn (pyLower f) (pyLower b.text)))).flatMap
    (fun b => b.coords.map Prod.snd)

/-- The comprehension `[min(x for x, _ in b.coords) for b in header_boxes]`
feeding `lefts` (line 149). -/
def leftXs : List (OCRBox ℚ) → Except PyErr (List ℚ)
  | [] => .ok []
  | b :: bs =>
    match minList (b.coords.map Prod.fst) with
    | .error e => .error e
    | .ok x =>
      match leftXs bs with
      | .error e => .error e
      | .ok xs => .ok (x :: xs)

/-- The comprehension `[max(x for x,_ in b.coords) for b in header_boxes]`
feeding `right` (line 150). -/
def rightXs : List (OCRBox ℚ) → Except PyErr (List ℚ)
  | [] => .ok []
  | b :: bs =>
    match maxList (b.coords.map Prod.fst) with
    | .error e => .error e
    | .ok x =>
      match rightXs bs with
      | .error e => .error e
      | .ok xs => .ok (x :: xs)

/-- Column edges of `plot_table_grid_auto` (lines 148–153): with header
boxes, each one's leftmost corner x plus the single overall rightmost
corner x, sorted ascending; with none, `len(headers)+1` evenly spaced
points across the observed x-range. -/
def colEdgesOf (hboxes : List (OCRBox ℚ)) (xmin xmax : ℚ)
    (headers : List String) : Except PyErr (List ℚ) :=
  if hboxes.isEmpty then .ok (linspace xmin xmax (headers.length + 1))
  else
    match leftXs hboxes with
    | .error e => .error e
    | .ok lefts =>
      match rightXs hboxes with
      | .error e => .error e
      | .ok rights =>
        match maxList rights with
        | .error e => .error e
        | .ok right => .ok (pySorted (lefts ++ [right]))

/-- The strict proportional-margin filter for item rows (line 160). -/
def itemBoxPred (headerTop footerBottom : ℚ) (b : OCRBox ℚ) : Bool :=
  headerTop * (12 / 10) < (OCRBox.center b).2 &&
    (OCRBox.center b).2 < footerBottom * (8 / 10)

/-- The sorted set of distinct rounded item-row centers (line 160). -/
def rawItemRows (boxes : List (OCRBox ℚ)) (headerTop footerBottom : ℚ) :
    List ℚ :=
  pySorted (((boxes.filter (itemBoxPred headerTop footerBottom)).map
    (fun b => pyRound3 (OCRBox.center b).2)).dedup)

/-- The grid data `plot_table_grid_auto` computes before drawing. -/
structure AutoGrid where
  colEdges : List ℚ
  itemRows : List ℚ
  rowEdges : List ℚ
  deriving Repr, DecidableEq

/-- The computational core of `plot_table_grid_auto` (lines 141–166), with
each Python `min`/`max` over a possibly empty sequence threaded through
`Except`: the observed x-range, the header boxes and column edges, then
`header_top` and `footer_bottom`, then the clustered item rows
(`tol = 0.02`), `n_rows = 1 + n_items + 1`, and the `n_rows + 1` evenly
spaced row edges.  (`y_min`/`y_max` of line 144 are empty exactly when
`all_x` is, so their `min`/`max` raise on the same inputs as line 143.) -/
def reconstructAuto (boxes : List (OCRBox ℚ)) (headers footers : List String) :
    Except PyErr AutoGrid :=
  match minList (boxes.flatMap (fun b => b.coords.map Prod.fst)) with
  | .error e => .error e
  | .ok xmin =>
    match maxList (boxes.flatMap (fun b => b.coords.map Prod.fst)) with
    | .error e => .error e
    | .ok xmax =>
      match colEdgesOf (headerBoxes boxes headers) xmin xmax headers with
      | .error e => .error e
      | .ok colEdges =>
        match minList (headerYs boxes headers) with
        | .error e => .error e
        | .ok headerTop =>
          match maxList (footerYs boxes footers) with
          | .error e => .error e
          | .ok footerBottom =>
            .ok ⟨colEdges,
              cluster_rows (rawItemRows boxes headerTop footerBottom) (2 / 100),
              linspace headerTop footerBottom
                (1 + (cluster_rows (rawItemRows boxes headerTop footerBottom)
                  (2 / 100)).length + 1 + 1)⟩

noncomputable section SlopeCorrection

/-- `get_quadrant(cx, cy)` of `correct_slope` (and of
`table_reconstruction.py`): chained conditionals splitting the plane at the
midpoint `(0.5, 0.5)`. -/
def get_quadrant (c : ℝ × ℝ) : ℕ :=
  if c.1 < 1 / 2 ∧ c.2 < 1 / 2 then 0
  else if 1 / 2 ≤ c.1 ∧ c.2 < 1 / 2 then 1
  else if c.1 < 1 / 2 ∧ 1 / 2 ≤ c.2 then 2
  else 3

/-- `OCRBox.width`: Euclidean distance between the first two corners,
`((x1 - x0)**2 + (y1 - y0)**2) ** 0.5`. -/
def OCRBox.width (b : OCRBox ℝ) : ℝ :=
  match b.coords with
  | (x0, y0) :: (x1, y1) :: _ => Real.sqrt ((x1 - x0) ^ 2 + (y1 - y0) ^ 2)
  | _ => 0

/-- The accumulated `slope_sums[q]` of `correct_slope`:
`sum of b.slope * b.width` over the boxes whose center lies in quadrant
`q`. -/
def slopeSum (boxes : List (OCRBox ℝ)) (q : ℕ) : ℝ :=
  ((boxes.filter (fun b => get_quadrant (OCRBox.center b) == q)).map
    (fun b => OCRBox.slope b * OCRBox.width b)).sum

/-- The accumulated `weight_sums[q]` of `correct_slope`: sum of `b.width`
over the boxes whose center lies in quadrant `q`. -/
def weightSum (boxes : List (OCRBox ℝ)) (q : ℕ) : ℝ :=
  ((boxes.filter (fun b => get_quadrant (OCRBox.center b) == q)).map
    OCRBox.width).sum

/-- `avg_slopes[q]` of `correct_slope`:
`slope_sums[q] / weight_sums[q] if weight_sums[q] > 0 else 0.0`. -/
def avgSlope (boxes : List (OCRBox ℝ)) (q : ℕ) : ℝ :=
  if 0 < weightSum boxes q then slopeSum boxes q / weightSum boxes q else 0

/-- The per-quadrant estimated skew angle: `angle = math.atan(avg_slopes[q])`
(line 110). -/
def estAngle (boxes : List (OCRBox ℝ)) (q : ℕ) : ℝ :=
  Real.arctan (avgSlope boxes q)

/-- The inner rotation of `correct_slope` (lines 112–119): shift by the
pivot `(0.5, 0.5)`, rotate by `-angle`, shift back. -/
def rotatePoint (angle : ℝ) (p : ℝ × ℝ) : ℝ × ℝ :=
  let cosA := Real.cos (-angle)
  let sinA := Real.sin (-angle)
  let xShift := p.1 - 1 / 2
  let yShift := p.2 - 1 / 2
  (xShift * cosA - yShift * sinA + 1 / 2, xShift * sinA + yShift * cosA + 1 / 2)

/-- `correct_slope(boxes)`: per box, look up its quadrant's estimated angle
and rotate all four corners, producing a new box with the same text. -/
def correct_slope (boxes : List (OCRBox ℝ)) : List (OCRBox ℝ) :=
  boxes.map (fun b =>
    OCRBox.mk b.text
      (b.coords.map (rotatePoint (estAngle boxes (get_quadrant (OCRBox.center b))))))

end SlopeCorrection

/-- A record matching neither accepted wire shape: no `coords` entry of
length exactly 4, and at least one of the keys `x0, y0, x1, y1` missing. -/
def badShapeB (blk : Blk) : Bool :=
  (match blk.coords with
    | some cs => !(cs.length == 4)
    | none => true) &&
  (blk.x0.isNone || blk.y0.isNone || blk.x1.isNone || blk.y1.isNone)

/-- Modelled from the spec: the clustering loop as §4.5 words it, carrying
the open group as its running sum and count (so "the group's running mean"
is `s / n`), closing the group when a value is farther than `tolerance`
from that mean and always emitting the final group. -/
def clusterSpecAux (tol : ℚ) : List ℚ → ℚ → ℕ → List ℚ
  | [], s, n => [s / (n : ℚ)]
  | y :: ys, s, n =>
    if |y - s / (n : ℚ)| ≤ tol then clusterSpecAux tol ys (s + y) (n + 1)
    else s / (n : ℚ) :: clusterSpecAux tol ys y 1

/-- Modelled from the spec: `cluster` of §4.5 — a single greedy pass, empty
input giving empty output. -/
def clusterRowsSpec (values : List ℚ) (tol : ℚ) : List ℚ :=
  match values with
  | [] => []
  | y :: ys => clusterSpecAux tol ys y 1

/-- Modelled from the spec: the claimed bidirectional case-insensitive
substring test between a box's text and the header label set
(`a.lower() in b.lower() or b.lower() in a.lower()`). -/
def specHeaderMatch (b : OCRBox ℚ) (headers : List String) : Bool :=
  headers.any (fun h =>
    pyIn (pyLower b.text) (pyLower h) || pyIn (pyLower h) (pyLower b.text))

example : pyIn "" "abc" = true := by decide
example : pyIn "bc" "abc" = true := by decide
example : pyIn "ac" "abc" = false := by decide
example : pyLower "Units Sold" = "units sold" := by decide
example : pySorted [3, 1, 2] = [1, 2, 3] := by rfl
unseal Rat.add Rat.mul Rat.inv Rat.sub in
example : cluster_rows [11/100, 12/100, 13/100, 21/100, 22/100] (2/100)
    = [12/100, 215/1000] := by decide

/-! ## Claims about the Box model -/

/-- Claim C7: constructing a Box with a coordinate count different from 4
fails with the ValidationError ("OCRBox requires 4 corner coordinates") and
the caller never receives a partially built Box; a coordinate list of
length exactly 4 constructs a box carrying exactly the given text and
coordinates. -/
theorem mkOCRBox_validates_length (t : String) (cs : List (ℚ × ℚ)) :
    (cs.length ≠ 4 → mkOCRBox t cs = .error PyErr.validationError) ∧
    (cs.length = 4 → mkOCRBox t cs = .ok ⟨t, cs⟩) := by
  constructor <;> intro h <;> simp [mkOCRBox, h]

/-- Claim C9: a Box's slope is the top edge's rise `y1 - y0` over its run
floored at `1e-6`, i.e. over `max (x1 - x0) (1/1000000)`; that denominator
is always strictly positive (so the division never divides by zero), and
when the run is zero or negative the denominator is exactly `1e-6`. -/
theorem slope_run_floored (t : String) (x0 y0 x1 y1 : ℚ)
    (rest : List (ℚ × ℚ)) :
    OCRBox.slope ⟨t, (x0, y0) :: (x1, y1) :: rest⟩
        = (y1 - y0) / max (x1 - x0) (1 / 1000000) ∧
      0 < max (x1 - x0) (1 / 1000000) ∧
      (x1 - x0 ≤ 0 → max (x1 - x0) (1 / 1000000) = 1 / 1000000) := by
  refine ⟨rfl, lt_of_lt_of_le (by norm_num) (le_max_right _ _), fun h => ?_⟩
  exact max_eq_right (h.trans (by norm_num))

/-! ## Claims about ingestion -/

theorem parseBlk_none_iff (blk : Blk) :
    parseBlk blk = none ↔ badShapeB blk = true := by
  obtain ⟨t, co, a0, b0, a1, b1⟩ := blk
  cases co with
  | none =>
    cases a0 <;> cases b0 <;> cases a1 <;> cases b1 <;>
      simp [parseBlk, badShapeB]
  | some cs =>
    by_cases h : cs.length = 4 <;>
      cases a0 <;> cases b0 <;> cases a1 <;> cases b1 <;>
        simp [parseBlk, badShapeB, h]

theorem parseBlk_some_len (blk : Blk) (cs : List (ℚ × ℚ))
    (h : parseBlk blk = some cs) : cs.length = 4 := by
  obtain ⟨t, co, a0, b0, a1, b1⟩ := blk
  cases co with
  | none =>
    cases a0 <;> cases b0 <;> cases a1 <;> cases b1 <;>
      (simp_all [parseBlk]; try simp [← h])
  | some cs2 =>
    by_cases h4 : cs2.length = 4 <;>
      cases a0 <;> cases b0 <;> cases a1 <;> cases b1 <;>
        (simp_all [parseBlk]; try simp [← h, h4])

/-- Claim C6: a record matching neither accepted shape makes loading fail
with the FormatError identifying an offending record, and the whole batch
is aborted: the result is that error, so no Boxes at all are returned. -/
theorem load_aborts_on_bad_record (blks : List Blk) (blk : Blk)
    (hmem : blk ∈ blks) (hbad : badShapeB blk = true) :
    ∃ bad, bad ∈ blks ∧ badShapeB bad = true ∧
      loadBlocks blks = .error (.formatError bad) := by
  induction blks with
  | nil => cases hmem
  | cons b bs ih =>
    cases hp : parseBlk b with
    | none =>
      exact ⟨b, List.mem_cons_self b bs, (parseBlk_none_iff b).mp hp,
        by simp [loadBlocks, hp]⟩
    | some cs =>
      have hb : blk ∈ bs := by
        rcases List.mem_cons.mp hmem with rfl | h
        · rw [(parseBlk_none_iff blk).mpr hbad] at hp; cases hp
        · exact h
      obtain ⟨bad, hbmem, hbbad, hload⟩ := ih hb
      have hlen := parseBlk_some_len b cs hp
      refine ⟨bad, List.mem_cons_of_mem _ hbmem, hbbad, ?_⟩
      simp [loadBlocks, hp, mkOCRBox, hlen, hload]

def demoGoodBlk : Blk :=
  ⟨some "Units", some [(0, 0), (1, 0), (1, 1), (0, 1)], none, none, none, none⟩

def demoBadBlk : Blk := ⟨some "junk", none, some 0, none, some 1, none⟩

/-- Witness for `load_aborts_on_bad_record` at a concrete two-record batch
whose second record has neither shape. -/
theorem load_aborts_on_bad_record_witness :
    ∃ bad, bad ∈ [demoGoodBlk, demoBadBlk] ∧ badShapeB bad = true ∧
      loadBlocks [demoGoodBlk, demoBadBlk] = .error (.formatError bad) :=
  load_aborts_on_bad_record [demoGoodBlk, demoBadBlk] demoBadBlk
    (by decide) (by decide)

/-- Claim C10: loading rejects a record iff it both lacks a length-4
`coords` entry and lacks one of the rectangle keys; a record that is not
rejected is ingested, and in particular one carrying a `coords` list of
length ≠ 4 together with all four rectangle keys is silently ingested via
the rectangle shape, its `coords` entry ignored. -/
theorem load_reject_iff_neither_shape (blk : Blk) :
    (loadBlocks [blk] = .error (.formatError blk) ↔ badShapeB blk = true) ∧
    (badShapeB blk = false →
      ∃ cs, parseBlk blk = some cs ∧
        loadBlocks [blk] = .ok [⟨blk.text.getD "", cs⟩]) ∧
    (∀ cs x0 y0 x1 y1, blk.coords = some cs → cs.length ≠ 4 →
      blk.x0 = some x0 → blk.y0 = some y0 → blk.x1 = some x1 →
      blk.y1 = some y1 →
      loadBlocks [blk] =
        .ok [⟨blk.text.getD "", [(x0, y0), (x1, y0), (x1, y1), (x0, y1)]⟩]) := by
  refine ⟨?_, ?_, ?_⟩
  · cases hp : parseBlk blk with
    | none => simp [loadBlocks, hp, (parseBlk_none_iff blk).mp hp]
    | some cs =>
      have hlen := parseBlk_some_len blk cs hp
      have : ¬ badShapeB blk = true := fun hb => by
        rw [(parseBlk_none_iff blk).mpr hb] at hp; cases hp
      simp [loadBlocks, hp, mkOCRBox, hlen, this]
  · intro hb
    cases hp : parseBlk blk with
    | none => rw [(parseBlk_none_iff blk).mp hp] at hb; cases hb
    | some cs =>
      have hlen := parseBlk_some_len blk cs hp
      exact ⟨cs, rfl, by simp [loadBlocks, hp, mkOCRBox, hlen]⟩
  · intro cs x0 y0 x1 y1 hco hlen hx0 hy0 hx1 hy1
    have hp : parseBlk blk = some [(x0, y0), (x1, y0), (x1, y1), (x0, y1)] := by
      simp [parseBlk, hco, hlen, hx0, hy0, hx1, hy1]
    simp [loadBlocks, hp, mkOCRBox]

/-! ## Claims about row clustering -/

theorem clusterAux_eq_spec (tol : ℚ) (ys : List ℚ) :
    ∀ grp acc, grp ≠ [] →
      clusterAux tol ys grp acc
        = acc ++ clusterSpecAux tol ys grp.sum grp.length := by
  induction ys with
  | nil => intro grp acc _; simp [clusterAux, clusterSpecAux, npMean]
  | cons y ys ih =>
    intro grp acc hg
    simp only [clusterAux, clusterSpecAux, npMean]
    by_cases hc : |y - grp.sum / (grp.length : ℚ)| ≤ tol
    · rw [if_pos hc, if_pos hc, ih (grp ++ [y]) acc (by simp)]
      simp [List.sum_append, List.length_append]
    · rw [if_neg hc, if_neg hc, ih [y] _ (by simp)]
      simp

/-- Claim C5: the clustering pass of `cluster_rows` is exactly the greedy
single-pass algorithm of the spec: a value joins the open group iff its
distance from the group's running mean is at most the tolerance (inclusive
at exactly the tolerance), otherwise the group's mean is emitted and a new
group starts; the final group's mean is always emitted; empty input gives
empty output. -/
theorem cluster_rows_matches_spec (values : List ℚ) (tol : ℚ) :
    cluster_rows values tol = clusterRowsSpec values tol := by
  cases values with
  | nil => rfl
  | cons y ys =>
    simpa [cluster_rows, clusterRowsSpec] using
      clusterAux_eq_spec tol ys [y] [] (by simp)

/-! ## Claims about header matching -/

def wideBox : OCRBox ℚ := ⟨"Units Sold", [(0, 0), (1, 0), (1, 1), (0, 1)]⟩

/-- Claim C1 as stated is false at a concrete input: the box text
"Units Sold" and the label set ["Units"] are in case-insensitive substring
containment in one direction ("units" occurs in "units sold"), yet the
reconstructor does not identify the box as a header box — line 146 tests
only `b.text.lower() in h.lower()`. -/
theorem header_match_not_bidirectional :
    specHeaderMatch wideBox ["Units"] = true ∧
      headerBoxes [wideBox] ["Units"] = [] := by decide

/-- Claim C1 amended: a box is identified as a header box iff its
lower-cased text is nonempty and occurs as a substring of the lower-cased
text of some caller-supplied header label (containment in that one
direction only, not bidirectionally). -/
theorem headerBoxes_mem_iff (boxes : List (OCRBox ℚ)) (headers : List String)
    (b : OCRBox ℚ) :
    b ∈ headerBoxes boxes headers ↔
      b ∈ boxes ∧ pyLower b.text ≠ "" ∧
        ∃ h ∈ headers, pyIn (pyLower b.text) (pyLower h) = true := by
  simp only [headerBoxes, List.mem_filter, Bool.and_eq_true, Bool.not_eq_true',
    List.any_eq_true, and_assoc]
  refine and_congr_right fun _ => and_congr_left fun _ => ?_
  simp [Bool.eq_false_iff, String.isEmpty_iff]

/-! ## Claims about grid reconstruction -/

theorem minList_ok_of_ne (l : List ℚ) (h : l ≠ []) : ∃ x, minList l = .ok x := by
  cases l with
  | nil => exact absurd rfl h
  | cons x xs => exact ⟨xs.foldl min x, rfl⟩

theorem maxList_ok_of_ne (l : List ℚ) (h : l ≠ []) : ∃ x, maxList l = .ok x := by
  cases l with
  | nil => exact absurd rfl h
  | cons x xs => exact ⟨xs.foldl max x, rfl⟩

theorem leftXs_ok (bs : List (OCRBox ℚ)) (h : ∀ b ∈ bs, b.coords ≠ []) :
    ∃ ls, leftXs bs = .ok ls := by
  induction bs with
  | nil => exact ⟨[], rfl⟩
  | cons b bs ih =>
    obtain ⟨x, hx⟩ := minList_ok_of_ne (b.coords.map Prod.fst)
      (by simp [h b (List.mem_cons_self b bs)])
    obtain ⟨ls, hls⟩ := ih fun c hc => h c (List.mem_cons_of_mem _ hc)
    exact ⟨x :: ls, by simp [leftXs, hx, hls]⟩

theorem rightXs_ok (bs : List (OCRBox ℚ)) (h : ∀ b ∈ bs, b.coords ≠ []) :
    ∃ ls, rightXs bs = .ok ls := by
  induction bs with
  | nil => exact ⟨[], rfl⟩
  | cons b bs ih =>
    obtain ⟨x, hx⟩ := maxList_ok_of_ne (b.coords.map Prod.fst)
      (by simp [h b (List.mem_cons_self b bs)])
    obtain ⟨ls, hls⟩ := ih fun c hc => h c (List.mem_cons_of_mem _ hc)
    exact ⟨x :: ls, by simp [rightXs, hx, hls]⟩

theorem leftXs_length (bs : List (OCRBox ℚ)) (ls : List ℚ)
    (h : leftXs bs = .ok ls) : ls.length = bs.length := by
  induction bs generalizing ls with
  | nil => cases h; rfl
  | cons b bs ih =>
    revert h
    unfold leftXs
    cases minList (b.coords.map Prod.fst) with
    | error e => intro h; cases h
    | ok x =>
      cases hr : leftXs bs with
      | error e => intro h; cases h
      | ok xs => intro h; cases h; simpa using ih xs hr

theorem rightXs_length (bs : List (OCRBox ℚ)) (ls : List ℚ)
    (h : rightXs bs = .ok ls) : ls.length = bs.length := by
  induction bs generalizing ls with
  | nil => cases h; rfl
  | cons b bs ih =>
    revert h
    unfold rightXs
    cases maxList (b.coords.map Prod.fst) with
    | error e => intro h; cases h
    | ok x =>
      cases hr : rightXs bs with
      | error e => intro h; cases h
      | ok xs => intro h; cases h; simpa using ih xs hr

theorem linspace_length (a b : ℚ) (n : ℕ) : (linspace a b n).length = n := by
  unfold linspace
  rw [List.length_map, List.length_range]

theorem colEdgesOf_ok (hboxes : List (OCRBox ℚ)) (xmin xmax : ℚ)
    (headers : List String) (h : ∀ b ∈ hboxes, b.coords ≠ []) :
    ∃ l, colEdgesOf hboxes xmin xmax headers = .ok l := by
  cases hb : hboxes.isEmpty with
  | true => exact ⟨linspace xmin xmax (headers.length + 1), by simp [colEdgesOf, hb]⟩
  | false =>
    obtain ⟨lefts, hl⟩ := leftXs_ok hboxes h
    obtain ⟨rights, hr⟩ := rightXs_ok hboxes h
    have hrlen : rights.length = hboxes.length := rightXs_length _ _ hr
    have hrne : rights ≠ [] := by
      intro hnil
      rw [hnil] at hrlen
      rw [List.isEmpty_eq_false] at hb
      exact hb (List.eq_nil_of_length_eq_zero hrlen.symm)
    obtain ⟨right, hmax⟩ := maxList_ok_of_ne rights hrne
    exact ⟨pySorted (lefts ++ [right]), by simp [colEdgesOf, hb, hl, hr, hmax]⟩

theorem colEdgesOf_cons_inv (hboxes : List (OCRBox ℚ)) (xmin xmax : ℚ)
    (headers : List String) (colEdges : List ℚ) (hne : hboxes ≠ [])
    (h : colEdgesOf hboxes xmin xmax headers = .ok colEdges) :
    ∃ lefts rights right, leftXs hboxes = .ok lefts ∧
      rightXs hboxes = .ok rights ∧ maxList rights = .ok right ∧
      colEdges = pySorted (lefts ++ [right]) := by
  unfold colEdgesOf at h
  rw [if_neg (by simp [List.isEmpty_iff, hne])] at h
  split at h
  · cases h
  · split at h
    · cases h
    · split at h
      · cases h
      · rename_i u1 lefts hl u2 rights hr u3 right hm
        cases h
        exact ⟨lefts, rights, right, hl, hr, hm, rfl⟩

/-- Inversion of a successful `reconstructAuto` run: every intermediate
`min`/`max` succeeded and the grid is built from the resulting
`header_top`, `footer_bottom`, column edges and clustered item rows. -/
theorem reconstructAuto_ok_inv (boxes : List (OCRBox ℚ))
    (headers footers : List String) (g : AutoGrid)
    (hok : reconstructAuto boxes headers footers = .ok g) :
    ∃ xmin xmax colEdges headerTop footerBottom,
      minList (boxes.flatMap (fun b => b.coords.map Prod.fst)) = .ok xmin ∧
      maxList (boxes.flatMap (fun b => b.coords.map Prod.fst)) = .ok xmax ∧
      colEdgesOf (headerBoxes boxes headers) xmin xmax headers = .ok colEdges ∧
      minList (headerYs boxes headers) = .ok headerTop ∧
      maxList (footerYs boxes footers) = .ok footerBottom ∧
      g = ⟨colEdges,
        cluster_rows (rawItemRows boxes headerTop footerBottom) (2 / 100),
        linspace headerTop footerBottom
          (1 + (cluster_rows (rawItemRows boxes headerTop footerBottom)
            (2 / 100)).length + 1 + 1)⟩ := by
  unfold reconstructAuto at hok
  split at hok
  · cases hok
  · split at hok
    · cases hok
    · split at hok
      · cases hok
      · split at hok
        · cases hok
        · split at hok
          · cases hok
          · rename_i u1 xmin h1 u2 xmax h2 u3 colEdges h3 u4 headerTop h4
              u5 footerBottom h5
            cases hok
            exact ⟨xmin, xmax, colEdges, headerTop, footerBottom,
              h1, h2, h3, h4, h5, rfl⟩

instance {ε α : Type} [DecidableEq ε] [DecidableEq α] :
    DecidableEq (Except ε α) := fun a b =>
  match a, b with
  | .error e, .error f =>
    if h : e = f then isTrue (by rw [h]) else isFalse (by simpa using h)
  | .ok x, .ok y =>
    if h : x = y then isTrue (by rw [h]) else isFalse (by simpa using h)
  | .error _, .ok _ => isFalse (fun h => Except.noConfusion h)
  | .ok _, .error _ => isFalse (fun h => Except.noConfusion h)

def plainBox : OCRBox ℚ := ⟨"data", [(0, 0), (1, 0), (1, 1), (0, 1)]⟩

/-- Claim C2 as stated is false at a concrete input: with one box whose
text matches no header label, reconstruction fails with the generic
empty-sequence ValueError that `min()` raises (line 157), not with a
distinct ReconstructionError. -/
theorem missing_header_error_is_generic :
    reconstructAuto [plainBox] ["Units"] ["Total"]
        = .error .emptySequenceError ∧
      PyErr.emptySequenceError ≠ PyErr.reconstructionError := by decide

/-- Claim C2 amended: on a nonempty box set whose boxes each have corners,
if the headers label set matches no box (so the `header_top` candidate set
is empty), or headers match some box but the footers set matches none,
grid reconstruction fails — but with the generic empty-sequence error of
Python's builtin `min`/`max`, not with a distinct ReconstructionError
(no such error exists in the code). -/
theorem reconstruct_missing_labels_generic_error (boxes : List (OCRBox ℚ))
    (headers footers : List String)
    (hx : boxes.flatMap (fun b => b.coords.map Prod.fst) ≠ [])
    (hcoords : ∀ b ∈ boxes, b.coords ≠ []) :
    (headerYs boxes headers = [] →
      reconstructAuto boxes headers footers = .error .emptySequenceError) ∧
    (footerYs boxes footers = [] → headerYs boxes headers ≠ [] →
      reconstructAuto boxes headers footers = .error .emptySequenceError) := by
  obtain ⟨xmin, h1⟩ := minList_ok_of_ne _ hx
  obtain ⟨xmax, h2⟩ := maxList_ok_of_ne _ hx
  obtain ⟨colEdges, h3⟩ := colEdgesOf_ok (headerBoxes boxes headers) xmin xmax
    headers (fun b hb => hcoords b (List.mem_of_mem_filter hb))
  have hminNil : minList [] = .error .emptySequenceError := rfl
  have hmaxNil : maxList [] = .error .emptySequenceError := rfl
  constructor
  · intro hhy
    unfold reconstructAuto
    simp only [h1, h2, h3, hhy, hminNil]
  · intro hfy hhy
    obtain ⟨headerTop, h4⟩ := minList_ok_of_ne _ hhy
    unfold reconstructAuto
    simp only [h1, h2, h3, h4, hfy, hmaxNil]

/-- Witness for `reconstruct_missing_labels_generic_error` at a concrete
nonempty box set none of whose boxes matches the header label. -/
theorem reconstruct_missing_labels_generic_error_witness :
    reconstructAuto [plainBox] ["Units"] ["Total"]
      = .error .emptySequenceError :=
  (reconstruct_missing_labels_generic_error [plainBox] ["Units"] ["Total"]
    (by decide) (by decide)).1 (by decide)

/-- Claim C3: whenever reconstruction succeeds, the header boxes are
nonempty and they cover the header label set one-to-one
(`len(header_boxes) = len(headers)`), the grid has exactly `k + 3` row
edges for clustered item-row count `k`, and exactly `len(headers) + 1`
column edges, the column edges being each header box's minimum x plus the
single overall rightmost x among header boxes, sorted ascending. -/
theorem grid_edge_counts (boxes : List (OCRBox ℚ))
    (headers footers : List String) (g : AutoGrid)
    (hok : reconstructAuto boxes headers footers = .ok g)
    (hne : headerBoxes boxes headers ≠ [])
    (hcover : (headerBoxes boxes headers).length = headers.length) :
    g.rowEdges.length = g.itemRows.length + 3 ∧
      g.colEdges.length = headers.length + 1 ∧
      ∃ lefts rights right, leftXs (headerBoxes boxes headers) = .ok lefts ∧
        rightXs (headerBoxes boxes headers) = .ok rights ∧
        maxList rights = .ok right ∧
        g.colEdges = pySorted (lefts ++ [right]) := by
  obtain ⟨xmin, xmax, colEdges, headerTop, footerBottom,
    _, _, h3, _, _, hg⟩ := reconstructAuto_ok_inv boxes headers footers g hok
  obtain ⟨lefts, rights, right, hl, hr, hm, hcol⟩ :=
    colEdgesOf_cons_inv _ xmin xmax headers colEdges hne h3
  subst hg
  refine ⟨?_, ?_, lefts, rights, right, hl, hr, hm, hcol⟩
  · simp only [linspace_length]
    omega
  · rw [hcol]
    unfold pySorted
    rw [List.length_insertionSort]
    simp [leftXs_length _ _ hl, hcover]

def hdrBox1 : OCRBox ℚ :=
  ⟨"Units", [(1/10, 1/10), (3/10, 1/10), (3/10, 14/100), (1/10, 14/100)]⟩

def hdrBox2 : OCRBox ℚ :=
  ⟨"Total", [(5/10, 1/10), (7/10, 1/10), (7/10, 14/100), (5/10, 14/100)]⟩

def itemBox1 : OCRBox ℚ :=
  ⟨"12", [(1/10, 4/10), (2/10, 4/10), (2/10, 45/100), (1/10, 45/100)]⟩

def itemBox2 : OCRBox ℚ :=
  ⟨"34", [(1/10, 405/1000), (2/10, 405/1000), (2/10, 455/1000), (1/10, 455/1000)]⟩

def footBox : OCRBox ℚ :=
  ⟨"Total Charge", [(1/10, 8/10), (4/10, 8/10), (4/10, 85/100), (1/10, 85/100)]⟩

def demoBoxes : List (OCRBox ℚ) := [hdrBox1, hdrBox2, itemBox1, itemBox2, footBox]

def demoGrid : AutoGrid := ⟨[1/10, 1/2, 7/10], [171/400], [1/10, 7/20, 3/5, 17/20]⟩

set_option maxRecDepth 8000 in
unseal Rat.add Rat.mul Rat.inv Rat.sub in
/-- Witness for `grid_edge_counts` at a concrete five-box table (two header
boxes covering the two header labels, two clustered item centers forming
one item row, one footer box): 4 row edges = 1 + 3, 3 column edges
= 2 + 1. -/
theorem grid_edge_counts_witness :
    demoGrid.rowEdges.length = demoGrid.itemRows.length + 3 ∧
      demoGrid.colEdges.length = (["Units", "Total"] : List String).length + 1 ∧
      ∃ lefts rights right,
        leftXs (headerBoxes demoBoxes ["Units", "Total"]) = .ok lefts ∧
        rightXs (headerBoxes demoBoxes ["Units", "Total"]) = .ok rights ∧
        maxList rights = .ok right ∧
        demoGrid.colEdges = pySorted (lefts ++ [right]) :=
  grid_edge_counts demoBoxes ["Units", "Total"] ["Total Charge"] demoGrid
    (by decide) (by decide) (by decide)

/-! ## Claims about skew estimation and correction -/

/-- Claim C4: each quadrant's estimated skew angle is the arctangent of the
width-weighted average slope — `atan (slope_sum q / weight_sum q)` whenever
the weight sum is positive, `0` when the quadrant holds no boxes or zero
total width; in particular a quadrant containing exactly two boxes of
widths 1 and 3 with slopes `s1`, `s2` gets angle
`atan ((s1*1 + s2*3) / 4)`. -/
theorem quadrant_angle_weighted_average (boxes : List (OCRBox ℝ)) (q : ℕ) :
    (0 < weightSum boxes q →
        estAngle boxes q
          = Real.arctan (slopeSum boxes q / weightSum boxes q)) ∧
    ((boxes.filter (fun b => get_quadrant (OCRBox.center b) == q) = [] ∨
        weightSum boxes q = 0) → estAngle boxes q = 0) ∧
    (∀ b1 b2 : OCRBox ℝ, ∀ s1 s2 : ℝ,
      OCRBox.width b1 = 1 → OCRBox.width b2 = 3 →
      OCRBox.slope b1 = s1 → OCRBox.slope b2 = s2 →
      get_quadrant (OCRBox.center b1) = q →
      get_quadrant (OCRBox.center b2) = q →
      estAngle [b1, b2] q = Real.arctan ((s1 * 1 + s2 * 3) / 4)) := by
  refine ⟨fun h => ?_, fun h => ?_,
    fun b1 b2 s1 s2 hw1 hw2 hs1 hs2 hq1 hq2 => ?_⟩
  · unfold estAngle avgSlope
    rw [if_pos h]
  · have hw : weightSum boxes q = 0 := by
      rcases h with h | h
      · unfold weightSum
        rw [h]
        rfl
      · exact h
    unfold estAngle avgSlope
    rw [hw]
    simp
  · have hf : [b1, b2].filter (fun b => get_quadrant (OCRBox.center b) == q)
        = [b1, b2] := by
      simp [List.filter, hq1, hq2]
    unfold estAngle avgSlope slopeSum weightSum
    rw [hf]
    simp only [List.map_cons, List.map_nil, List.sum_cons, List.sum_nil,
      hw1, hw2, hs1, hs2]
    rw [if_pos (by norm_num)]
    norm_num

theorem get_quadrant_lt_four (c : ℝ × ℝ) : get_quadrant c < 4 := by
  unfold get_quadrant
  split
  · norm_num
  · split
    · norm_num
    · split
      · norm_num
      · norm_num

theorem rotatePoint_zero (p : ℝ × ℝ) : rotatePoint 0 p = p := by
  unfold rotatePoint
  simp only [neg_zero, Real.cos_zero, Real.sin_zero]
  have h1 : (p.1 - 1 / 2) * 1 - (p.2 - 1 / 2) * 0 + 1 / 2 = p.1 := by ring
  have h2 : (p.1 - 1 / 2) * 0 + (p.2 - 1 / 2) * 1 + 1 / 2 = p.2 := by ring
  rw [h1, h2]

theorem map_eq_self_of {α : Type} (f : α → α) :
    ∀ l : List α, (∀ b ∈ l, f b = b) → l.map f = l := by
  intro l
  induction l with
  | nil => intro _; rfl
  | cons x xs ih =>
    intro h
    simp only [List.map_cons]
    rw [h x (List.mem_cons_self x xs),
      ih (fun b hb => h b (List.mem_cons_of_mem _ hb))]

/-- Claim C8: when every quadrant's estimated skew angle is 0, the
correction pass returns boxes whose coordinates and text equal the input
exactly (over exact real arithmetic): rotating by the negation of a zero
angle about the pivot `(0.5, 0.5)` is the identity. -/
theorem zero_skew_roundtrip (boxes : List (OCRBox ℝ))
    (h : ∀ q, q < 4 → estAngle boxes q = 0) :
    correct_slope boxes = boxes := by
  unfold correct_slope
  apply map_eq_self_of
  intro b _
  rw [h _ (get_quadrant_lt_four _)]
  rw [map_eq_self_of _ _ (fun p _ => rotatePoint_zero p)]

def zeroBox : OCRBox ℝ := ⟨"cell", [(0, 0), (1, 0), (1, 1), (0, 1)]⟩

/-- Witness for `zero_skew_roundtrip`: a single axis-aligned box has slope
0, so every quadrant's weighted slope sum is 0 and every estimated angle is
`atan 0 = 0`; correction returns the box unchanged. -/
theorem zero_skew_roundtrip_witness : correct_slope [zeroBox] = [zeroBox] := by
  apply zero_skew_roundtrip
  intro q _
  have hs : OCRBox.slope zeroBox = 0 := by
    simp [OCRBox.slope, zeroBox]
  have hss : slopeSum [zeroBox] q = 0 := by
    unfold slopeSum
    cases hq : (get_quadrant (OCRBox.center zeroBox) == q) <;>
      simp [List.filter, hq, hs]
  unfold estAngle avgSlope
  rw [hss]
  split
  · simp
  · simp

def unitBox : OCRBox ℝ := ⟨"w1", [(-1, 0), (0, 0), (0, 1), (-1, 1)]⟩

def threeBox : OCRBox ℝ := ⟨"w3", [(-3, 0), (0, 0), (0, 1), (-3, 1)]⟩

theorem unitBox_width : OCRBox.width unitBox = 1 := by
  unfold OCRBox.width unitBox
  norm_num

theorem threeBox_width : OCRBox.width threeBox = 3 := by
  unfold OCRBox.width threeBox
  norm_num
  rw [show (9 : ℝ) = 3 ^ 2 by norm_num, Real.sqrt_sq (by norm_num : (0:ℝ) ≤ 3)]

theorem unitBox_slope : OCRBox.slope unitBox = 0 := by
  simp [OCRBox.slope, unitBox]

theorem threeBox_slope : OCRBox.slope threeBox = 0 := by
  simp [OCRBox.slope, threeBox]

theorem unitBox_quadrant : get_quadrant (OCRBox.center unitBox) = 2 := by
  have hc : OCRBox.center unitBox = (-(1 / 2 : ℝ), 1 / 2) := by
    unfold OCRBox.center unitBox
    norm_num
  rw [hc]
  unfold get_quadrant
  norm_num

theorem threeBox_quadrant : get_quadrant (OCRBox.center threeBox) = 2 := by
  have hc : OCRBox.center threeBox = (-(3 / 2 : ℝ), 1 / 2) := by
    unfold OCRBox.center threeBox
    norm_num
  rw [hc]
  unfold get_quadrant
  norm_num

/-- Witness for `quadrant_angle_weighted_average`: two concrete boxes of
widths 1 and 3, both of slope 0 and both centered in quadrant 2, give that
quadrant the angle `atan ((0*1 + 0*3) / 4)`. -/
theorem quadrant_angle_weighted_average_witness :
    estAngle [unitBox, threeBox] 2 = Real.arctan ((0 * 1 + 0 * 3) / 4) :=
  (quadrant_angle_weighted_average [unitBox, threeBox] 2).2.2 unitBox threeBox
    0 0 unitBox_width threeBox_width unitBox_slope threeBox_slope
    unitBox_quadrant threeBox_quadrant
